import Mathlib

/-!
Verification of the queue/dispatch core of the elevate-emails repository.

The development shallowly embeds the JavaScript sources:
  - src/src/job-queue-manager.js        (class JobQueueManager)
  - src/src/email-service-v2.js         (class EmailServiceV2, sendJobEmail)
  - src/netlify/functions/job-email-scheduler-v2.js (schedulerHandler)

Modelling conventions:
  - ISO timestamp strings are modelled as natural numbers (milliseconds since
    the epoch); comparison of parsed dates corresponds to comparison on Nat.
  - Each operation takes the current time as an explicit parameter now; all
    calls to the system clock inside one operation yield that same instant.
  - The Netlify blob store plus the in-memory fallback are modelled as a
    single Store value holding an optional persisted QueueState document.
    Fault injection flags readFails and writeFails model a throwing
    store.get and a throwing store.setJSON respectively.
  - Operations that can throw in JavaScript return Except String; catch
    blocks are modelled by the corresponding match on the inner result.
  - JavaScript falsiness of a possibly absent guid string is modelled by
    Option String, where none and some "" are both falsy.
-/

/-- Status of a job record: the enum \x7bpending, sent\x7d. -/
inductive Status where
  | pending
  | sent
deriving DecidableEq, Repr

/-- A queue entry, as built by JobQueueManager.addNewJobs (lines 93-100 of
job-queue-manager.js). -/
structure JobRecord where
  guid : String
  jobNumber : Option String
  pubDate : Nat
  status : Status
  discoveredAt : Nat
  sentAt : Option Nat
  applyUrl : String
deriving DecidableEq, Repr

/-- The persisted queue document (jobQueue, lastProcessed, emailsSent,
totalJobsProcessed), as normalized by normalizeQueueData. -/
structure QueueState where
  jobQueue : List JobRecord
  lastProcessed : Nat
  emailsSent : Nat
  totalJobsProcessed : Nat
deriving DecidableEq, Repr

/-- Input metadata for addNewJobs, as produced by the RSS metadata
extractor: guid (possibly absent or empty), jobNumber, pubDate, applyUrl. -/
structure JobMetadata where
  guid : Option String
  jobNumber : Option String
  pubDate : Option Nat
  applyUrl : String
deriving DecidableEq, Repr

/-- The blob storage backend together with fault-injection flags.
data is the persisted queue document (none when nothing was written yet);
readFails makes store.get throw, writeFails makes store.setJSON throw. -/
structure Store where
  data : Option QueueState
  readFails : Bool
  writeFails : Bool
deriving DecidableEq, Repr

/-- JobQueueManager.getEmptyQueue (lines 66-73). -/
def getEmptyQueue (now : Nat) : QueueState :=
  { jobQueue := [], lastProcessed := now, emailsSent := 0,
    totalJobsProcessed := 0 }

/-- JobQueueManager.normalizeQueueData (lines 55-64): absent data becomes
the empty queue; well-typed data already has every field. -/
def normalizeQueueData (now : Nat) : Option QueueState → QueueState
  | none => getEmptyQueue now
  | some q => q

/-- JobQueueManager.getJobQueue (lines 33-53): reads the document; any
retrieval error is caught and yields the empty queue. -/
def getJobQueue (st : Store) (now : Nat) : QueueState :=
  if st.readFails then getEmptyQueue now
  else normalizeQueueData now st.data

/-- JobQueueManager.saveQueueData (lines 174-184): writes the document;
a throwing store.setJSON is modelled as an error result. -/
def saveQueueData (st : Store) (q : QueueState) : Except String Store :=
  if st.writeFails then Except.error "store write failed"
  else Except.ok { st with data := some q }

/-- The filter of addNewJobs (lines 86-92): keep an input record when its
guid is truthy and not already present among the existing guids. -/
def keepJob (existingGuids : List String) (job : JobMetadata) : Bool :=
  match job.guid with
  | none => false
  | some g => g ≠ "" && !(existingGuids.contains g)

/-- The map of addNewJobs (lines 93-100): build the pending JobRecord,
defaulting an absent pubDate to the insertion instant. -/
def toRecord (now : Nat) (job : JobMetadata) : JobRecord :=
  { guid := job.guid.getD ""
    jobNumber := job.jobNumber
    pubDate := job.pubDate.getD now
    status := Status.pending
    discoveredAt := now
    sentAt := none
    applyUrl := job.applyUrl }

/-- JobQueueManager.addNewJobs (lines 75-120): dedup against the guids
already in the queue, append survivors as pending, bump
totalJobsProcessed, persist; a failing write is rethrown wrapped. -/
def addNewJobs (st : Store) (now : Nat) (jobMetadata : List JobMetadata) :
    Except String (QueueState × Store) :=
  if jobMetadata.isEmpty then Except.ok (getJobQueue st now, st)
  else
    let queueData := getJobQueue st now
    let existingGuids := queueData.jobQueue.map (fun j => j.guid)
    let newJobs := (jobMetadata.filter (keepJob existingGuids)).map (toRecord now)
    if newJobs.isEmpty then Except.ok (queueData, st)
    else
      let updated : QueueState :=
        { jobQueue := queueData.jobQueue ++ newJobs
          lastProcessed := now
          emailsSent := queueData.emailsSent
          totalJobsProcessed := queueData.totalJobsProcessed + newJobs.length }
      match saveQueueData st updated with
      | Except.ok st2 => Except.ok (updated, st2)
      | Except.error e => Except.error ("Failed to add jobs to queue: " ++ e)

/-- The FIFO order of getNextBatch: ascending pubDate. -/
def jobLE (a b : JobRecord) : Prop := a.pubDate ≤ b.pubDate

instance : DecidableRel jobLE := fun a b => Nat.decLe a.pubDate b.pubDate

instance : IsTotal JobRecord jobLE := ⟨fun a b => Nat.le_total a.pubDate b.pubDate⟩

instance : IsTrans JobRecord jobLE := ⟨fun _ _ _ => Nat.le_trans⟩

/-- The comparator sort of getNextBatch (line 127): a stable sort by
ascending pubDate, matching the stable JavaScript Array.prototype.sort
with comparator new Date(a.pubDate) - new Date(b.pubDate). -/
def sortByPubDate (l : List JobRecord) : List JobRecord :=
  l.insertionSort jobLE

/-- The pending-status test used throughout job-queue-manager.js. -/
def isPending (j : JobRecord) : Bool := decide (j.status = Status.pending)

/-- JobQueueManager.getNextBatch (lines 122-138): filter pending, stable
sort ascending by pubDate, take the first count records; a pure read that
returns the store untouched. -/
def getNextBatch (st : Store) (now : Nat) (count : Nat) :
    List JobRecord × Store :=
  let queueData := getJobQueue st now
  let pendingJobs := sortByPubDate (queueData.jobQueue.filter isPending)
  (pendingJobs.take count, st)

/-- The per-record test of markAsSent (line 152): guid selected and
status still pending. -/
def shouldMark (guids : List String) (j : JobRecord) : Bool :=
  guids.contains j.guid && isPending j

/-- The per-record mutation of markAsSent (lines 153-154). -/
def applyMark (now : Nat) (j : JobRecord) : JobRecord :=
  { j with status := Status.sent, sentAt := some now }

/-- JobQueueManager.markAsSent (lines 140-172): flip every selected
pending record to sent, bump emailsSent by one and persist only when at
least one record transitioned; a failing write is rethrown wrapped. -/
def markAsSent (st : Store) (now : Nat) (guids : List String) :
    Except String (Bool × Store) :=
  if guids.isEmpty then Except.ok (false, st)
  else
    let queueData := getJobQueue st now
    let markedCount := (queueData.jobQueue.filter (shouldMark guids)).length
    let newQueue :=
      queueData.jobQueue.map (fun j => if shouldMark guids j then applyMark now j else j)
    if markedCount > 0 then
      let updated : QueueState :=
        { jobQueue := newQueue
          lastProcessed := now
          emailsSent := queueData.emailsSent + 1
          totalJobsProcessed := queueData.totalJobsProcessed }
      match saveQueueData st updated with
      | Except.ok st2 => Except.ok (true, st2)
      | Except.error e => Except.error ("Failed to mark jobs as sent: " ++ e)
    else Except.ok (false, st)

/-- JobQueueManager.getPendingCount (lines 186-189). -/
def getPendingCount (q : QueueState) : Nat :=
  (q.jobQueue.filter isPending).length

/-- The stats object returned by getQueueStats. -/
structure Stats where
  totalJobs : Nat
  pendingJobs : Nat
  sentJobs : Nat
  neededForEmail : Nat
  emailsSent : Nat
  totalJobsProcessed : Nat
  lastProcessed : Option Nat
  oldestPendingJob : Option Nat
  newestPendingJob : Option Nat
  error : Option String
deriving DecidableEq, Repr

/-- JobQueueManager.getQueueStats (lines 191-233). getJobQueue catches
its own storage failures, so the try body is total and the catch branch
of getQueueStats (the zeroed object carrying an error field, lines
220-231) is unreachable; the returned stats always have error = none. -/
def getQueueStats (st : Store) (now : Nat) : Stats :=
  let queueData := getJobQueue st now
  let pendingJobs := queueData.jobQueue.filter isPending
  let sentJobs := queueData.jobQueue.filter (fun j => decide (j.status = Status.sent))
  let sortedPending := sortByPubDate pendingJobs
  { totalJobs := queueData.jobQueue.length
    pendingJobs := pendingJobs.length
    sentJobs := sentJobs.length
    neededForEmail := 10 - pendingJobs.length
    emailsSent := queueData.emailsSent
    totalJobsProcessed := queueData.totalJobsProcessed
    lastProcessed := some queueData.lastProcessed
    oldestPendingJob := sortedPending.head?.map (fun j => j.pubDate)
    newestPendingJob := sortedPending.getLast?.map (fun j => j.pubDate)
    error := none }

/-- Milliseconds per day, for the cutoff computed by setDate. -/
def msPerDay : Nat := 86400000

/-- The keep filter of cleanupOldJobs (lines 242-247): pending records
and sent records without a sentAt are kept; a sent record is kept only
when its sentAt is strictly after the cutoff. -/
def keepOnCleanup (cutoff : Int) (j : JobRecord) : Bool :=
  match j.status, j.sentAt with
  | Status.pending, _ => true
  | _, none => true
  | _, some t => decide ((t : Int) > cutoff)

/-- JobQueueManager.cleanupOldJobs (lines 235-261): drop old sent
records, persist only when something was removed; a failing write is
caught and the operation returns the re-read (pre-write) state instead
of surfacing the error (lines 257-260). -/
def cleanupOldJobs (st : Store) (now : Nat) (daysOld : Nat) :
    Except String (QueueState × Store) :=
  let queueData := getJobQueue st now
  let cutoff : Int := (now : Int) - (daysOld : Int) * (msPerDay : Int)
  let kept := queueData.jobQueue.filter (keepOnCleanup cutoff)
  let removedCount := queueData.jobQueue.length - kept.length
  if removedCount > 0 then
    let updated : QueueState := { queueData with jobQueue := kept }
    match saveQueueData st updated with
    | Except.ok st2 => Except.ok (updated, st2)
    | Except.error _ => Except.ok (getJobQueue st now, st)
  else Except.ok (queueData, st)

instance {ε α : Type} [DecidableEq ε] [DecidableEq α] : DecidableEq (Except ε α) :=
  fun a b =>
    match a, b with
    | Except.ok x, Except.ok y =>
      if h : x = y then Decidable.isTrue (by rw [h])
      else Decidable.isFalse (by intro hc; cases hc; exact h rfl)
    | Except.error x, Except.error y =>
      if h : x = y then Decidable.isTrue (by rw [h])
      else Decidable.isFalse (by intro hc; cases hc; exact h rfl)
    | Except.ok _, Except.error _ => Decidable.isFalse (by intro hc; cases hc)
    | Except.error _, Except.ok _ => Decidable.isFalse (by intro hc; cases hc)

/-- Behaviour of the external collaborators of EmailServiceV2.sendJobEmail:
the detail hydration result (the guids of the job details found by
rssParser.fetchJobDetails, or its failure) and the campaign sender result
(the campaign id from sendCampaign, or its failure). -/
structure SendEnv where
  hydration : Except String (List String)
  sender : Except String String
deriving DecidableEq, Repr

/-- The success value of sendJobEmail (lines 66-73). -/
structure SendResult where
  campaignId : String
  jobCount : Nat
  guidsProcessed : Nat
  sentAt : Nat
  queueUpdated : Bool
deriving DecidableEq, Repr

/-- The observable outcome of one sendJobEmail call: its result, the
store afterwards, and which collaborators were invoked. -/
structure SendOutcome where
  result : Except String SendResult
  store : Store
  hydrationCalled : Bool
  sendCalled : Bool
  markCalled : Bool
  markArg : Option (List String)
deriving DecidableEq, Repr

/-- EmailServiceV2.sendJobEmail (lines 29-80): hydrate the originally
selected guids, abort when nothing was hydrated, send the campaign, and
only after a confirmed send call markAsSent with the original guids; any
error in the transaction is rethrown wrapped. -/
def sendJobEmail (env : SendEnv) (st : Store) (now : Nat)
    (jobGuids : List String) : SendOutcome :=
  if jobGuids.isEmpty then
    { result := Except.error "No job GUIDs provided for email", store := st
      hydrationCalled := false, sendCalled := false, markCalled := false
      markArg := none }
  else
    match env.hydration with
    | Except.error e =>
      { result := Except.error ("Failed to send job email: " ++ e), store := st
        hydrationCalled := true, sendCalled := false, markCalled := false
        markArg := none }
    | Except.ok jobs =>
      if jobs.isEmpty then
        { result := Except.error
            "Failed to send job email: No job details found for provided GUIDs"
          store := st, hydrationCalled := true, sendCalled := false
          markCalled := false, markArg := none }
      else
        match env.sender with
        | Except.error e =>
          { result := Except.error
              ("Failed to send job email: Failed to send campaign: " ++ e)
            store := st, hydrationCalled := true, sendCalled := true
            markCalled := false, markArg := none }
        | Except.ok campaignId =>
          match markAsSent st now jobGuids with
          | Except.ok (marked, st2) =>
            { result := Except.ok
                { campaignId := campaignId, jobCount := jobs.length
                  guidsProcessed := jobGuids.length, sentAt := now
                  queueUpdated := marked }
              store := st2, hydrationCalled := true, sendCalled := true
              markCalled := true, markArg := some jobGuids }
          | Except.error e =>
            { result := Except.error ("Failed to send job email: " ++ e)
              store := st, hydrationCalled := true, sendCalled := true
              markCalled := true, markArg := some jobGuids }

/-- Environment of one scheduler invocation: the RSS metadata fetch
result, the configured threshold (parseInt(JOB_THRESHOLD) defaulting to
10), and the collaborator behaviour for the send step. -/
structure SchedulerEnv where
  feed : Except String (List JobMetadata)
  threshold : Nat
  sendEnv : SendEnv
deriving DecidableEq, Repr

/-- The JSON response body of schedulerHandler, by terminal branch. -/
inductive CycleBody where
  | noJobsFound
  | emailSent (campaignId : String) (jobsSent : Nat) (guidsProcessed : Nat)
      (queueUpdated : Bool)
  | thresholdNoBatch (pendingJobs : Nat)
  | waiting (pendingJobs : Nat) (needed : Nat)
  | failure (msg : String)
deriving DecidableEq, Repr

/-- The observable outcome of one scheduler cycle: HTTP status, body,
store afterwards, and which collaborators were invoked. -/
structure CycleOutcome where
  statusCode : Nat
  body : CycleBody
  store : Store
  batchCalled : Bool
  hydrationCalled : Bool
  sendCalled : Bool
  markCalled : Bool
  markArg : Option (List String)
deriving DecidableEq, Repr

/-- schedulerHandler (job-email-scheduler-v2.js, lines 6-112): one
accumulate-or-flush cycle: fetch metadata, enqueue, compare the pending
count against the threshold, and either report the shortfall or select a
batch and run the send transaction; thrown errors are caught and
reported with statusCode 500. -/
def schedulerHandler (env : SchedulerEnv) (st : Store) (now : Nat) :
    CycleOutcome :=
  match env.feed with
  | Except.error e =>
    { statusCode := 500, body := CycleBody.failure e, store := st
      batchCalled := false, hydrationCalled := false, sendCalled := false
      markCalled := false, markArg := none }
  | Except.ok jobMetadata =>
    if jobMetadata.isEmpty then
      { statusCode := 200, body := CycleBody.noJobsFound, store := st
        batchCalled := false, hydrationCalled := false, sendCalled := false
        markCalled := false, markArg := none }
    else
      match addNewJobs st now jobMetadata with
      | Except.error e =>
        { statusCode := 500, body := CycleBody.failure e, store := st
          batchCalled := false, hydrationCalled := false, sendCalled := false
          markCalled := false, markArg := none }
      | Except.ok (updatedQueue, st1) =>
        let pendingCount := getPendingCount updatedQueue
        if pendingCount ≥ env.threshold then
          let jobsForEmail := (getNextBatch st1 now env.threshold).1
          if jobsForEmail.isEmpty then
            { statusCode := 200
              body := CycleBody.thresholdNoBatch pendingCount, store := st1
              batchCalled := true, hydrationCalled := false
              sendCalled := false, markCalled := false, markArg := none }
          else
            let jobGuids := jobsForEmail.map (fun j => j.guid)
            let so := sendJobEmail env.sendEnv st1 now jobGuids
            match so.result with
            | Except.ok r =>
              { statusCode := 200
                body := CycleBody.emailSent r.campaignId r.jobCount
                  r.guidsProcessed r.queueUpdated
                store := so.store, batchCalled := true
                hydrationCalled := so.hydrationCalled
                sendCalled := so.sendCalled, markCalled := so.markCalled
                markArg := so.markArg }
            | Except.error e =>
              { statusCode := 500, body := CycleBody.failure e
                store := so.store, batchCalled := true
                hydrationCalled := so.hydrationCalled
                sendCalled := so.sendCalled, markCalled := so.markCalled
                markArg := so.markArg }
        else
          { statusCode := 200
            body := CycleBody.waiting pendingCount (env.threshold - pendingCount)
            store := st1, batchCalled := false, hydrationCalled := false
            sendCalled := false, markCalled := false, markArg := none }

/-- Fixture builder: a queue record with fixed incidental fields. -/
def mkRec (g : String) (pd : Nat) (s : Status) (sa : Option Nat) : JobRecord :=
  { guid := g, jobNumber := none, pubDate := pd, status := s,
    discoveredAt := 0, sentAt := sa, applyUrl := "u" }

/-- Fixture: a store holding no document. -/
def exEmptyStore : Store := { data := none, readFails := false, writeFails := false }

/-- Fixture: an empty store whose writes fail. -/
def exStoreWBad : Store := { data := none, readFails := false, writeFails := true }

/-- Fixture: metadata with guid a. -/
def exMetaA : JobMetadata :=
  { guid := some "a", jobNumber := none, pubDate := some 1, applyUrl := "u" }

/-- Fixture: metadata with guid b. -/
def exMetaB : JobMetadata :=
  { guid := some "b", jobNumber := none, pubDate := some 2, applyUrl := "u" }

/-- Fixture: the queue produced by enqueueing [exMetaA, exMetaA] at time 0. -/
def exDupQueue : QueueState :=
  { jobQueue := [toRecord 0 exMetaA, toRecord 0 exMetaA], lastProcessed := 0,
    emailsSent := 0, totalJobsProcessed := 2 }

/-- Fixture: pending a, b, c and already-sent d. -/
def exQueueABCD : QueueState :=
  { jobQueue := [mkRec "a" 1 Status.pending none, mkRec "b" 2 Status.pending none,
                 mkRec "c" 3 Status.pending none, mkRec "d" 4 Status.sent (some 5)],
    lastProcessed := 0, emailsSent := 0, totalJobsProcessed := 4 }

/-- Fixture: store holding exQueueABCD. -/
def exStoreABCD : Store :=
  { data := some exQueueABCD, readFails := false, writeFails := false }

/-- Fixture: store holding exQueueABCD whose reads fail. -/
def exStoreReadBad : Store :=
  { data := some exQueueABCD, readFails := true, writeFails := false }

/-- Fixture: pending records with pubDate 3, 1, 2 in insertion order. -/
def exQueue312 : QueueState :=
  { jobQueue := [mkRec "g3" 3 Status.pending none, mkRec "g1" 1 Status.pending none,
                 mkRec "g2" 2 Status.pending none],
    lastProcessed := 0, emailsSent := 0, totalJobsProcessed := 3 }

/-- Fixture: store holding exQueue312. -/
def exStore312 : Store :=
  { data := some exQueue312, readFails := false, writeFails := false }

/-- Fixture: nine distinct metadata records. -/
def exNineMeta : List JobMetadata :=
  ["a1", "a2", "a3", "a4", "a5", "a6", "a7", "a8", "a9"].map
    (fun g => { guid := some g, jobNumber := none, pubDate := some 1, applyUrl := "u" })

/-- Fixture: the queue produced by enqueueing exNineMeta at time 0. -/
def exQueueNine : QueueState :=
  { jobQueue := exNineMeta.map (toRecord 0), lastProcessed := 0,
    emailsSent := 0, totalJobsProcessed := 9 }

/-- Fixture: store holding exQueueNine. -/
def exStoreNine : Store :=
  { data := some exQueueNine, readFails := false, writeFails := false }

/-- Fixture: scheduler environment with nine feed items and threshold 10. -/
def exEnvNine : SchedulerEnv :=
  { feed := Except.ok exNineMeta, threshold := 10,
    sendEnv := { hydration := Except.ok ["x"], sender := Except.ok "c1" } }

/-- Fixture: send environment whose campaign sender throws. -/
def exSendFail : SendEnv :=
  { hydration := Except.ok ["a"], sender := Except.error "boom" }

/-- Fixture: send environment hydrating one record, sender succeeding. -/
def exEnvHyd : SendEnv :=
  { hydration := Except.ok ["a"], sender := Except.ok "c1" }

/-- Fixture: send environment hydrating zero records. -/
def exEnvHydEmpty : SendEnv :=
  { hydration := Except.ok [], sender := Except.ok "c1" }

/-- Fixture: one sent record with sentAt 0. -/
def exCleanQueue : QueueState :=
  { jobQueue := [mkRec "s" 1 Status.sent (some 0)], lastProcessed := 0,
    emailsSent := 0, totalJobsProcessed := 1 }

/-- Fixture: store holding exCleanQueue whose writes fail. -/
def exStoreCleanBad : Store :=
  { data := some exCleanQueue, readFails := false, writeFails := true }

/-- Fixture: store holding exCleanQueue with working writes. -/
def exStoreBoundary : Store :=
  { data := some exCleanQueue, readFails := false, writeFails := false }

/-- Fixture: one pending record and one sent record, both older than now = 5. -/
def exQueuePS : QueueState :=
  { jobQueue := [mkRec "p" 1 Status.pending none, mkRec "s" 1 Status.sent (some 2)],
    lastProcessed := 0, emailsSent := 0, totalJobsProcessed := 2 }

/-- Fixture: store holding exQueuePS. -/
def exStorePS : Store :=
  { data := some exQueuePS, readFails := false, writeFails := false }

/-- Specification of markAsSent: exactly the selected pending records
transition to sent with sentAt = now, the result reports whether any
record transitioned, emailsSent is bumped by one exactly when something
transitioned, and the state is persisted only in that case. -/
def MarkAsSentSpec (st : Store) (now : Nat) (guids : List String) : Prop :=
  ∃ r st2, markAsSent st now guids = Except.ok (r, st2) ∧
    ((r = true) ↔ ∃ j ∈ (getJobQueue st now).jobQueue,
        j.guid ∈ guids ∧ j.status = Status.pending) ∧
    (r = false → st2 = st) ∧
    (r = true → st2 = { st with data := some (getJobQueue st2 now) } ∧
      (getJobQueue st2 now).emailsSent = (getJobQueue st now).emailsSent + 1) ∧
    (getJobQueue st2 now).jobQueue.length = (getJobQueue st now).jobQueue.length ∧
    (∀ p ∈ (getJobQueue st now).jobQueue.zip (getJobQueue st2 now).jobQueue,
      ((p.1.guid ∈ guids ∧ p.1.status = Status.pending) →
        p.2 = applyMark now p.1) ∧
      (¬(p.1.guid ∈ guids ∧ p.1.status = Status.pending) →
        p.2 = p.1))

/-- Specification of getNextBatch: a sorted-by-pubDate prefix of the
pending records, selected stably and without mutating the store. -/
def NextBatchSpec (st : Store) (now n : Nat) : Prop :=
  List.Sorted jobLE (getNextBatch st now n).1 ∧
  (∀ j ∈ (getNextBatch st now n).1,
     j.status = Status.pending ∧ j ∈ (getJobQueue st now).jobQueue) ∧
  (getNextBatch st now n).1.length =
    min n ((getJobQueue st now).jobQueue.filter isPending).length ∧
  (sortByPubDate ((getJobQueue st now).jobQueue.filter isPending)).Perm
    ((getJobQueue st now).jobQueue.filter isPending) ∧
  (∀ d, (sortByPubDate ((getJobQueue st now).jobQueue.filter isPending)).filter
          (fun j => decide (j.pubDate = d)) =
        ((getJobQueue st now).jobQueue.filter isPending).filter
          (fun j => decide (j.pubDate = d))) ∧
  (((getJobQueue st now).jobQueue.filter isPending).length ≤ n →
    (getNextBatch st now n).1 =
      sortByPubDate ((getJobQueue st now).jobQueue.filter isPending)) ∧
  (getNextBatch st now n).2 = st

/-- Specification of the dedup behaviour of addNewJobs: nothing whose
guid already exists in the pre-call queue is appended, guid uniqueness
is preserved when the input guids are distinct, totalJobsProcessed grows
by the number appended, and a second call with the same input appends
nothing further. -/
def AddNewJobsDedupSpec (st : Store) (now : Nat) (input : List JobMetadata) : Prop :=
  ∃ q2 st2, addNewJobs st now input = Except.ok (q2, st2) ∧
    (∀ r ∈ q2.jobQueue.drop (getJobQueue st now).jobQueue.length,
       r.guid ∉ (getJobQueue st now).jobQueue.map (fun j => j.guid)) ∧
    ((input.filterMap (fun m => m.guid)).Nodup →
      ((getJobQueue st now).jobQueue.map (fun j => j.guid)).Nodup →
      (q2.jobQueue.map (fun j => j.guid)).Nodup) ∧
    q2.totalJobsProcessed =
      (getJobQueue st now).totalJobsProcessed +
        (q2.jobQueue.length - (getJobQueue st now).jobQueue.length) ∧
    (∀ now2, ∃ q3, addNewJobs st2 now2 input = Except.ok (q3, st2) ∧
       q3.jobQueue = q2.jobQueue ∧
       q3.totalJobsProcessed = q2.totalJobsProcessed)

/-- Frame specification of addNewJobs: the pre-existing records are kept
unchanged, in place and in order; appended records are pending, stamped
with discoveredAt = now, carry no sentAt, and take their fields from a
surviving input record, with pubDate defaulting to now. -/
def AddNewJobsFrameSpec (st : Store) (now : Nat) (input : List JobMetadata) : Prop :=
  ∃ q2 st2, addNewJobs st now input = Except.ok (q2, st2) ∧
    q2.jobQueue.take (getJobQueue st now).jobQueue.length =
      (getJobQueue st now).jobQueue ∧
    ∀ r ∈ q2.jobQueue.drop (getJobQueue st now).jobQueue.length,
      r.status = Status.pending ∧ r.discoveredAt = now ∧ r.sentAt = none ∧
      ∃ m ∈ input, m.guid = some r.guid ∧ r.jobNumber = m.jobNumber ∧
        r.applyUrl = m.applyUrl ∧ r.pubDate = m.pubDate.getD now

/-- Specification of cleanupOldJobs: pending records and sent records
lacking a sentAt are retained; a sent record is removed exactly when its
sentAt is at or before the cutoff; counters are untouched and the state
is persisted exactly when some record was removed. -/
def CleanupSpec (st : Store) (now daysOld : Nat) : Prop :=
  ∃ q2 st2, cleanupOldJobs st now daysOld = Except.ok (q2, st2) ∧
    (∀ j ∈ (getJobQueue st now).jobQueue,
       j.status = Status.pending → j ∈ q2.jobQueue) ∧
    (∀ j ∈ (getJobQueue st now).jobQueue, j.sentAt = none → j ∈ q2.jobQueue) ∧
    (∀ j ∈ (getJobQueue st now).jobQueue, ∀ t,
       j.status = Status.sent → j.sentAt = some t →
       (((t : Int) ≤ (now : Int) - (daysOld : Int) * (msPerDay : Int)) →
          j ∉ q2.jobQueue) ∧
       (((now : Int) - (daysOld : Int) * (msPerDay : Int) < (t : Int)) →
          j ∈ q2.jobQueue)) ∧
    (∀ j ∈ q2.jobQueue, j ∈ (getJobQueue st now).jobQueue) ∧
    q2.emailsSent = (getJobQueue st now).emailsSent ∧
    q2.totalJobsProcessed = (getJobQueue st now).totalJobsProcessed ∧
    (q2.jobQueue = (getJobQueue st now).jobQueue → st2 = st) ∧
    (q2.jobQueue ≠ (getJobQueue st now).jobQueue →
       st2 = { st with data := some q2 })

/-- Specification of getQueueStats: the derived read-only view of the
queue, with min/max pending pubDate, and no error field even when the
storage read fails (the read failure is absorbed by getJobQueue). -/
def StatsSpec (st : Store) (now : Nat) : Prop :=
  (getQueueStats st now).totalJobs = (getJobQueue st now).jobQueue.length ∧
  (getQueueStats st now).pendingJobs =
    ((getJobQueue st now).jobQueue.filter isPending).length ∧
  (getQueueStats st now).sentJobs =
    ((getJobQueue st now).jobQueue.filter
      (fun j => decide (j.status = Status.sent))).length ∧
  (getQueueStats st now).neededForEmail =
    10 - ((getJobQueue st now).jobQueue.filter isPending).length ∧
  (getQueueStats st now).emailsSent = (getJobQueue st now).emailsSent ∧
  (getQueueStats st now).totalJobsProcessed =
    (getJobQueue st now).totalJobsProcessed ∧
  (getQueueStats st now).lastProcessed = some (getJobQueue st now).lastProcessed ∧
  (getQueueStats st now).error = none ∧
  (((getJobQueue st now).jobQueue.filter isPending) = [] →
    (getQueueStats st now).oldestPendingJob = none ∧
    (getQueueStats st now).newestPendingJob = none) ∧
  (((getJobQueue st now).jobQueue.filter isPending) ≠ [] →
    (getQueueStats st now).oldestPendingJob.isSome ∧
    (getQueueStats st now).newestPendingJob.isSome) ∧
  (∀ d, (getQueueStats st now).oldestPendingJob = some d →
    (∃ j ∈ (getJobQueue st now).jobQueue.filter isPending, j.pubDate = d) ∧
    ∀ j ∈ (getJobQueue st now).jobQueue.filter isPending, d ≤ j.pubDate) ∧
  (∀ d, (getQueueStats st now).newestPendingJob = some d →
    (∃ j ∈ (getJobQueue st now).jobQueue.filter isPending, j.pubDate = d) ∧
    ∀ j ∈ (getJobQueue st now).jobQueue.filter isPending, j.pubDate ≤ d) ∧
  (st.readFails = true →
    (getQueueStats st now).totalJobs = 0 ∧ (getQueueStats st now).error = none)

theorem getJobQueue_of_readFails (st : Store) (now : Nat)
    (h : st.readFails = true) : getJobQueue st now = getEmptyQueue now := by
  simp [getJobQueue, h]

theorem shouldMark_eq_true_iff (guids : List String) (j : JobRecord) :
    shouldMark guids j = true ↔ j.guid ∈ guids ∧ j.status = Status.pending := by
  simp [shouldMark, isPending]

theorem keepJob_eq_true_iff (gs : List String) (m : JobMetadata) :
    keepJob gs m = true ↔ ∃ g, m.guid = some g ∧ g ≠ "" ∧ g ∉ gs := by
  cases hm : m.guid with
  | none => simp [keepJob, hm]
  | some g => simp [keepJob, hm]

theorem markAsSent_no_match (st : Store) (now : Nat) (guids : List String)
    (h : ∀ j ∈ (getJobQueue st now).jobQueue, ¬(shouldMark guids j = true)) :
    markAsSent st now guids = Except.ok (false, st) := by
  by_cases he : guids.isEmpty
  · simp [markAsSent, he]
  · simp [markAsSent, he, List.filter_eq_nil_iff.mpr h]

theorem markAsSent_match (st : Store) (now : Nat) (guids : List String)
    (hw : st.writeFails = false)
    (h : ∃ j ∈ (getJobQueue st now).jobQueue, shouldMark guids j = true) :
    markAsSent st now guids = Except.ok (true,
      { st with data := some (QueueState.mk
          ((getJobQueue st now).jobQueue.map
            (fun j => if shouldMark guids j then applyMark now j else j))
          now
          ((getJobQueue st now).emailsSent + 1)
          (getJobQueue st now).totalJobsProcessed) }) := by
  obtain ⟨j, hj, hmark⟩ := h
  have hne : guids.isEmpty = false := by
    cases hg : guids with
    | nil =>
      rw [hg] at hmark
      simp [shouldMark] at hmark
    | cons a t => rfl
  have hmem : j ∈ (getJobQueue st now).jobQueue.filter (shouldMark guids) :=
    List.mem_filter.mpr ⟨hj, hmark⟩
  have hpos : 0 < ((getJobQueue st now).jobQueue.filter (shouldMark guids)).length :=
    List.length_pos.mpr (List.ne_nil_of_mem hmem)
  simp [markAsSent, hne, hpos, saveQueueData, hw]

theorem filter_pubDate_orderedInsert (d : Nat) (a : JobRecord) (l : List JobRecord) :
    (l.orderedInsert jobLE a).filter (fun j => decide (j.pubDate = d)) =
      if a.pubDate = d then a :: l.filter (fun j => decide (j.pubDate = d))
      else l.filter (fun j => decide (j.pubDate = d)) := by
  induction l with
  | nil =>
    by_cases had : a.pubDate = d <;> simp [List.orderedInsert, had, List.filter]
  | cons b t ih =>
    by_cases hab : jobLE a b
    · rw [List.orderedInsert, if_pos hab]
      by_cases had : a.pubDate = d <;> simp [List.filter_cons, had]
    · rw [List.orderedInsert, if_neg hab]
      have hlt : b.pubDate < a.pubDate := Nat.lt_of_not_le (by simpa [jobLE] using hab)
      by_cases had : a.pubDate = d
      · have hbd : ¬(b.pubDate = d) := by omega
        simp [List.filter_cons, ih, had, hbd]
      · simp [List.filter_cons, ih, had]

theorem filter_pubDate_sortByPubDate (d : Nat) (l : List JobRecord) :
    (sortByPubDate l).filter (fun j => decide (j.pubDate = d)) =
      l.filter (fun j => decide (j.pubDate = d)) := by
  induction l with
  | nil => rfl
  | cons a t ih =>
    rw [sortByPubDate, List.insertionSort]
    rw [show List.insertionSort jobLE t = sortByPubDate t from rfl]
    rw [filter_pubDate_orderedInsert]
    by_cases had : a.pubDate = d <;> simp [List.filter_cons, had, ih]

theorem sortByPubDate_sorted (l : List JobRecord) :
    List.Sorted jobLE (sortByPubDate l) :=
  List.sorted_insertionSort jobLE l

theorem sortByPubDate_perm (l : List JobRecord) : (sortByPubDate l).Perm l :=
  List.perm_insertionSort jobLE l

theorem sortByPubDate_head_min (l : List JobRecord) (j : JobRecord)
    (h : (sortByPubDate l).head? = some j) :
    j ∈ l ∧ ∀ k ∈ l, j.pubDate ≤ k.pubDate := by
  obtain ⟨t, ht⟩ := List.head?_eq_some_iff.1 h
  have hs := sortByPubDate_sorted l
  rw [ht] at hs
  constructor
  · have hmem : j ∈ sortByPubDate l := by
      rw [ht]; exact List.mem_cons_self _ _
    exact (List.mem_insertionSort jobLE).1 hmem
  · intro k hk
    have hk2 : k ∈ sortByPubDate l := (List.mem_insertionSort jobLE).2 hk
    rw [ht] at hk2
    rcases List.mem_cons.1 hk2 with rfl | hk3
    · exact Nat.le_refl _
    · exact (List.sorted_cons.1 hs).1 k hk3

theorem sorted_getLast_max : ∀ (m : List JobRecord), List.Sorted jobLE m →
    ∀ j, m.getLast? = some j → ∀ k ∈ m, k.pubDate ≤ j.pubDate := by
  intro m
  induction m with
  | nil => intro _ j hj; simp at hj
  | cons a t ih =>
    intro hs j hj k hk
    cases t with
    | nil =>
      simp at hj
      rcases List.mem_singleton.1 hk with rfl
      rw [hj]
    | cons b t2 =>
      rw [List.getLast?_cons_cons] at hj
      rcases List.mem_cons.1 hk with rfl | hk2
      · have hjmem : j ∈ b :: t2 := List.mem_of_getLast?_eq_some hj
        exact (List.sorted_cons.1 hs).1 j hjmem
      · exact ih (List.sorted_cons.1 hs).2 j hj k hk2

theorem sortByPubDate_getLast_max (l : List JobRecord) (j : JobRecord)
    (h : (sortByPubDate l).getLast? = some j) :
    j ∈ l ∧ ∀ k ∈ l, k.pubDate ≤ j.pubDate := by
  constructor
  · exact (List.mem_insertionSort jobLE).1 (List.mem_of_getLast?_eq_some h)
  · intro k hk
    exact sorted_getLast_max (sortByPubDate l) (sortByPubDate_sorted l) j h k
      ((List.mem_insertionSort jobLE).2 hk)

/-- C3: markAsSent transitions exactly the selected pending records to
sent with sentAt = now, silently ignores already-sent records and absent
guids, bumps emailsSent by exactly one per call iff something
transitioned, persists only in that case, and returns whether any record
transitioned. -/
theorem zip_self_map {α : Type} (fm : α → α) (l : List α) :
    l.zip (l.map fm) = l.map (fun a => (a, fm a)) := by
  induction l with
  | nil => rfl
  | cons a t ih => simp [ih]

theorem zip_self {α : Type} (l : List α) : l.zip l = l.map (fun a => (a, a)) := by
  induction l with
  | nil => rfl
  | cons a t ih => simp [ih]

theorem markAsSent_spec (st : Store) (now : Nat) (guids : List String)
    (hw : st.writeFails = false) : MarkAsSentSpec st now guids := by
  by_cases hm : ∃ j ∈ (getJobQueue st now).jobQueue, shouldMark guids j = true
  · have hrf : st.readFails = false := by
      by_contra hrf
      have hrt : st.readFails = true := by
        revert hrf; cases st.readFails <;> simp
      obtain ⟨j, hj, _⟩ := hm
      rw [getJobQueue_of_readFails st now hrt] at hj
      exact absurd hj (List.not_mem_nil j)
    have heq := markAsSent_match st now guids hw hm
    have hup : getJobQueue
        ({ st with data := some (QueueState.mk
            ((getJobQueue st now).jobQueue.map
              (fun j => if shouldMark guids j then applyMark now j else j))
            now ((getJobQueue st now).emailsSent + 1)
            (getJobQueue st now).totalJobsProcessed) }) now =
        QueueState.mk
          ((getJobQueue st now).jobQueue.map
            (fun j => if shouldMark guids j then applyMark now j else j))
          now ((getJobQueue st now).emailsSent + 1)
          (getJobQueue st now).totalJobsProcessed := by
      simp [getJobQueue, hrf, normalizeQueueData]
    refine ⟨true, _, heq, ?_, ?_, ?_, ?_, ?_⟩
    · constructor
      · intro _
        obtain ⟨j, hj, hmark⟩ := hm
        exact ⟨j, hj, (shouldMark_eq_true_iff guids j).mp hmark⟩
      · intro _; rfl
    · intro hc; cases hc
    · intro _
      rw [hup]
      exact ⟨rfl, rfl⟩
    · rw [hup]
      exact List.length_map _ _
    · intro p hp
      rw [hup] at hp
      rw [zip_self_map] at hp
      obtain ⟨a, ha, rfl⟩ := List.mem_map.1 hp
      constructor
      · intro hc
        simp only
        rw [if_pos ((shouldMark_eq_true_iff guids a).mpr hc)]
      · intro hc
        have hns : ¬(shouldMark guids a = true) := by
          intro hmk
          exact hc ((shouldMark_eq_true_iff guids a).mp hmk)
        simp only
        rw [if_neg hns]
  · have hall : ∀ j ∈ (getJobQueue st now).jobQueue, ¬(shouldMark guids j = true) := by
      intro j hj hc; exact hm ⟨j, hj, hc⟩
    refine ⟨false, st, markAsSent_no_match st now guids hall, ?_, ?_, ?_, ?_, ?_⟩
    · constructor
      · intro hc; cases hc
      · rintro ⟨j, hj, hg, hp⟩
        exact absurd ((shouldMark_eq_true_iff guids j).mpr ⟨hg, hp⟩) (hall j hj)
    · intro _; rfl
    · intro hc; cases hc
    · rfl
    · intro p hp
      rw [zip_self] at hp
      obtain ⟨a, ha, rfl⟩ := List.mem_map.1 hp
      constructor
      · rintro ⟨hg, hpend⟩
        exact absurd ((shouldMark_eq_true_iff guids a).mpr ⟨hg, hpend⟩) (hall a ha)
      · intro _; rfl

theorem markAsSent_spec_witness :
    exStoreABCD.writeFails = false ∧ MarkAsSentSpec exStoreABCD 10 ["a", "c"] :=
  ⟨rfl, markAsSent_spec exStoreABCD 10 ["a", "c"] rfl⟩

/-- C4: getNextBatch returns the pending records sorted ascending by
pubDate, truncated to the first n, with ties broken stably by insertion
order, and does not mutate the persisted state. -/
theorem getNextBatch_fifo_spec (st : Store) (now n : Nat) :
    NextBatchSpec st now n := by
  refine ⟨?_, ?_, ?_, sortByPubDate_perm _,
    fun d => filter_pubDate_sortByPubDate d _, ?_, rfl⟩
  · exact List.Pairwise.sublist (List.take_sublist _ _)
      (sortByPubDate_sorted ((getJobQueue st now).jobQueue.filter isPending))
  · intro j hj
    have hj2 : j ∈ sortByPubDate ((getJobQueue st now).jobQueue.filter isPending) :=
      List.take_subset _ _ hj
    have hj3 := List.mem_filter.1 ((List.mem_insertionSort jobLE).1 hj2)
    exact ⟨of_decide_eq_true hj3.2, hj3.1⟩
  · show (List.take n (sortByPubDate _)).length = _
    rw [List.length_take, sortByPubDate, List.length_insertionSort]
  · intro hle
    show List.take n (sortByPubDate _) = _
    apply List.take_of_length_le
    rw [sortByPubDate, List.length_insertionSort]
    exact hle

theorem getNextBatch_fifo_spec_witness :
    NextBatchSpec exStore312 0 3 ∧
    (getNextBatch exStore312 0 3).1.map (fun j => j.pubDate) = [1, 2, 3] :=
  ⟨getNextBatch_fifo_spec exStore312 0 3, by decide⟩

theorem sendJobEmail_sender_error (env : SendEnv) (st : Store) (now : Nat)
    (guids : List String) (e : String) (h : env.sender = Except.error e) :
    (sendJobEmail env st now guids).markCalled = false ∧
    (sendJobEmail env st now guids).store = st := by
  unfold sendJobEmail
  by_cases hg : guids.isEmpty
  · simp [hg]
  · simp only [hg, Bool.false_eq_true, if_false]
    cases hh : env.hydration with
    | error e2 => simp
    | ok jobs =>
      by_cases hj : jobs.isEmpty
      · simp [hj]
      · simp only [hj, Bool.false_eq_true, if_false]
        rw [h]
        exact ⟨rfl, rfl⟩

/-- C2: markAsSent is never called before the campaign send is
confirmed: it is only reachable after a successful sender result, and
when the sender throws, markAsSent is not called in the cycle, the
store is unchanged, and every record selected for the batch is still
pending afterwards. -/
theorem send_then_mark_ordering :
    (∀ (env : SendEnv) (st : Store) (now : Nat) (guids : List String),
      (sendJobEmail env st now guids).markCalled = true →
      ∃ cid, env.sender = Except.ok cid) ∧
    (∀ (env : SendEnv) (st : Store) (now : Nat) (guids : List String) (e : String),
      env.sender = Except.error e →
      (sendJobEmail env st now guids).markCalled = false ∧
      (sendJobEmail env st now guids).store = st ∧
      ((∀ j ∈ (getJobQueue st now).jobQueue,
          j.guid ∈ guids → j.status = Status.pending) →
        ∀ j ∈ (getJobQueue (sendJobEmail env st now guids).store now).jobQueue,
          j.guid ∈ guids → j.status = Status.pending)) ∧
    (∀ (env : SchedulerEnv) (st : Store) (now : Nat) (e : String),
      env.sendEnv.sender = Except.error e →
      (schedulerHandler env st now).markCalled = false) := by
  refine ⟨?_, ?_, ?_⟩
  · intro env st now guids hmc
    unfold sendJobEmail at hmc
    by_cases hg : guids.isEmpty
    · simp [hg] at hmc
    · simp only [hg, Bool.false_eq_true, if_false] at hmc
      cases hh : env.hydration with
      | error e2 => rw [hh] at hmc; simp at hmc
      | ok jobs =>
        rw [hh] at hmc
        by_cases hj : jobs.isEmpty
        · simp [hj] at hmc
        · simp only [hj, Bool.false_eq_true, if_false] at hmc
          cases hs : env.sender with
          | error e2 => rw [hs] at hmc; simp at hmc
          | ok cid => exact ⟨cid, rfl⟩
  · intro env st now guids e h
    obtain ⟨h1, h2⟩ := sendJobEmail_sender_error env st now guids e h
    refine ⟨h1, h2, ?_⟩
    intro hpend j hj hg
    rw [h2] at hj
    exact hpend j hj hg
  · intro env st now e h
    unfold schedulerHandler
    cases hf : env.feed with
    | error e2 => rfl
    | ok md =>
      by_cases hmd : md.isEmpty
      · simp [hmd]
      · simp only [hmd, Bool.false_eq_true, if_false]
        cases ha : addNewJobs st now md with
        | error e2 => rfl
        | ok p =>
          obtain ⟨uq, st1⟩ := p
          simp only
          by_cases hth : getPendingCount uq ≥ env.threshold
          · simp only [hth, if_true]
            by_cases hb : ((getNextBatch st1 now env.threshold).1).isEmpty
            · simp [hb]
            · simp only [hb, Bool.false_eq_true, if_false]
              cases hr : (sendJobEmail env.sendEnv st1 now
                  ((getNextBatch st1 now env.threshold).1.map (fun j => j.guid))).result with
              | ok r =>
                simp only [hr]
                exact (sendJobEmail_sender_error env.sendEnv st1 now _ e h).1
              | error e2 =>
                simp only [hr]
                exact (sendJobEmail_sender_error env.sendEnv st1 now _ e h).1
          · simp [hth]
  
theorem send_then_mark_ordering_witness :
    exSendFail.sender = Except.error "boom" ∧
    (sendJobEmail exSendFail exStoreABCD 0 ["a"]).markCalled = false :=
  ⟨rfl, (send_then_mark_ordering.2.1 exSendFail exStoreABCD 0 ["a"] "boom" rfl).1⟩

/-- C6: on a confirmed successful send, markAsSent receives exactly the
originally selected batch guids, even when hydration found fewer
records; and when hydration produced zero usable records, the cycle
aborts before the campaign send, marking nothing. -/
theorem mark_uses_original_guids :
    (∀ (env : SendEnv) (st : Store) (now : Nat) (guids : List String)
      (jobs : List String) (cid : String),
      env.hydration = Except.ok jobs → jobs ≠ [] → env.sender = Except.ok cid →
      guids ≠ [] →
      (sendJobEmail env st now guids).markCalled = true ∧
      (sendJobEmail env st now guids).markArg = some guids) ∧
    (∀ (env : SendEnv) (st : Store) (now : Nat) (guids : List String),
      env.hydration = Except.ok [] →
      (sendJobEmail env st now guids).sendCalled = false ∧
      (sendJobEmail env st now guids).markCalled = false ∧
      (sendJobEmail env st now guids).store = st ∧
      ∃ msg, (sendJobEmail env st now guids).result = Except.error msg) := by
  constructor
  · intro env st now guids jobs cid hh hj hs hg
    have hge : guids.isEmpty = false := by
      cases guids with
      | nil => exact absurd rfl hg
      | cons a t => rfl
    have hje : jobs.isEmpty = false := by
      cases jobs with
      | nil => exact absurd rfl hj
      | cons a t => rfl
    unfold sendJobEmail
    rw [hge, hh]
    simp only [Bool.false_eq_true, if_false, hje]
    rw [hs]
    cases hms : markAsSent st now guids with
    | ok p =>
      obtain ⟨marked, st2⟩ := p
      exact ⟨rfl, rfl⟩
    | error e2 => exact ⟨rfl, rfl⟩
  · intro env st now guids hh
    unfold sendJobEmail
    by_cases hg : guids.isEmpty
    · simp [hg]
    · simp only [hg, Bool.false_eq_true, if_false]
      rw [hh]
      exact ⟨rfl, rfl, rfl, _, rfl⟩

theorem mark_uses_original_guids_witness :
    exEnvHyd.hydration = Except.ok ["a"] ∧
    (sendJobEmail exEnvHyd exStoreABCD 0 ["a", "b"]).markArg = some ["a", "b"] ∧
    (sendJobEmail exEnvHydEmpty exStoreABCD 0 ["a", "b"]).sendCalled = false :=
  ⟨rfl,
   (mark_uses_original_guids.1 exEnvHyd exStoreABCD 0 ["a", "b"] ["a"] "c1"
      rfl (by decide) rfl (by decide)).2,
   (mark_uses_original_guids.2 exEnvHydEmpty exStoreABCD 0 ["a", "b"] rfl).1⟩

/-- C5: when the post-enqueue pending count is strictly below the
threshold, the cycle terminates reporting the pending count and the
remaining count needed (threshold minus pending), and neither batch
selection, hydration nor the campaign sender is invoked. -/
theorem threshold_gate (env : SchedulerEnv) (st : Store) (now : Nat)
    (md : List JobMetadata) (uq : QueueState) (st1 : Store)
    (hfeed : env.feed = Except.ok md) (hmd : md ≠ [])
    (hadd : addNewJobs st now md = Except.ok (uq, st1))
    (hlt : getPendingCount uq < env.threshold) :
    schedulerHandler env st now =
      { statusCode := 200
        body := CycleBody.waiting (getPendingCount uq)
          (env.threshold - getPendingCount uq)
        store := st1, batchCalled := false, hydrationCalled := false
        sendCalled := false, markCalled := false, markArg := none } := by
  have hmde : md.isEmpty = false := by
    cases md with
    | nil => exact absurd rfl hmd
    | cons a t => rfl
  unfold schedulerHandler
  rw [hfeed]
  simp only [hmde, Bool.false_eq_true, if_false]
  rw [hadd]
  simp only
  rw [if_neg (by omega : ¬(getPendingCount uq ≥ env.threshold))]

theorem threshold_gate_witness :
    schedulerHandler exEnvNine exEmptyStore 0 =
      { statusCode := 200
        body := CycleBody.waiting 9 1
        store := exStoreNine, batchCalled := false, hydrationCalled := false
        sendCalled := false, markCalled := false, markArg := none } := by
  have h := threshold_gate exEnvNine exEmptyStore 0 exNineMeta exQueueNine
    exStoreNine rfl (by decide) (by decide) (by decide)
  rw [h]
  rfl

/-- C8 (amended): getQueueStats always returns the derived stats view
and never reaches its error branch: when the storage read fails, the
stats are those of the empty queue, with totalJobs 0 and no error
field, because getJobQueue absorbs its own read failures. -/
theorem getQueueStats_spec (st : Store) (now : Nat) : StatsSpec st now := by
  unfold StatsSpec
  refine ⟨rfl, rfl, rfl, rfl, rfl, rfl, rfl, rfl, ?_, ?_, ?_, ?_, ?_⟩
  · intro h
    have hs : sortByPubDate ((getJobQueue st now).jobQueue.filter isPending) = [] := by
      rw [h]; rfl
    constructor
    · show ((sortByPubDate _).head?).map _ = none
      rw [hs]; rfl
    · show ((sortByPubDate _).getLast?).map _ = none
      rw [hs]; rfl
  · intro h
    have hs : sortByPubDate ((getJobQueue st now).jobQueue.filter isPending) ≠ [] := by
      intro hnil
      have := (sortByPubDate_perm ((getJobQueue st now).jobQueue.filter isPending)).length_eq
      rw [hnil] at this
      exact h (List.length_eq_zero.mp this.symm)
    cases hsp : sortByPubDate ((getJobQueue st now).jobQueue.filter isPending) with
    | nil => exact absurd hsp hs
    | cons a t =>
      constructor
      · show (((sortByPubDate _).head?).map _).isSome = true
        rw [hsp]; rfl
      · show (((sortByPubDate _).getLast?).map _).isSome = true
        rw [hsp]
        have : (a :: t).getLast?.isSome = true := by
          rw [List.getLast?_isSome]
          intro hc; cases hc
        cases hgl : (a :: t).getLast? with
        | none => rw [hgl] at this; cases this
        | some b => rfl
  · intro d hd
    have hd2 : ((sortByPubDate ((getJobQueue st now).jobQueue.filter isPending)).head?).map
        (fun j => j.pubDate) = some d := hd
    obtain ⟨j, hhead, hpd⟩ := Option.map_eq_some'.mp hd2
    obtain ⟨hmem, hmin⟩ := sortByPubDate_head_min _ j hhead
    exact ⟨⟨j, hmem, hpd⟩, fun k hk => hpd ▸ hmin k hk⟩
  · intro d hd
    have hd2 : ((sortByPubDate ((getJobQueue st now).jobQueue.filter isPending)).getLast?).map
        (fun j => j.pubDate) = some d := hd
    obtain ⟨j, hlast, hpd⟩ := Option.map_eq_some'.mp hd2
    obtain ⟨hmem, hmax⟩ := sortByPubDate_getLast_max _ j hlast
    exact ⟨⟨j, hmem, hpd⟩, fun k hk => hpd ▸ hmax k hk⟩
  · intro h
    constructor
    · show (getJobQueue st now).jobQueue.length = 0
      rw [getJobQueue_of_readFails st now h]
      rfl
    · rfl

theorem getQueueStats_spec_witness :
    StatsSpec exStoreReadBad 7 ∧ StatsSpec exStoreABCD 7 ∧
    (getQueueStats exStoreABCD 7).oldestPendingJob = some 1 :=
  ⟨getQueueStats_spec exStoreReadBad 7, getQueueStats_spec exStoreABCD 7, by decide⟩

/-- C8 counterexample: with a populated store whose read fails,
getQueueStats returns totalJobs 0 as claimed, but carries no error
field, contradicting the claim that the zeroed stats object carries an
error description. -/
theorem stats_read_failure_counterexample :
    (getQueueStats exStoreReadBad 7).totalJobs = 0 ∧
    (getQueueStats exStoreReadBad 7).error = none ∧
    exQueueABCD.jobQueue.length ≠ 0 := by
  refine ⟨rfl, rfl, by decide⟩

theorem keepOnCleanup_pending (cutoff : Int) (j : JobRecord)
    (h : j.status = Status.pending) : keepOnCleanup cutoff j = true := by
  unfold keepOnCleanup
  rw [h]
  cases j.sentAt <;> rfl

theorem keepOnCleanup_noSentAt (cutoff : Int) (j : JobRecord)
    (h : j.sentAt = none) : keepOnCleanup cutoff j = true := by
  unfold keepOnCleanup
  cases hst : j.status <;> rw [h]

theorem keepOnCleanup_sent (cutoff : Int) (j : JobRecord) (t : Nat)
    (hs : j.status = Status.sent) (ht : j.sentAt = some t) :
    keepOnCleanup cutoff j = decide ((t : Int) > cutoff) := by
  unfold keepOnCleanup
  rw [hs, ht]

theorem cleanupOldJobs_no_removal (st : Store) (now daysOld : Nat)
    (h : (getJobQueue st now).jobQueue.filter
        (keepOnCleanup ((now : Int) - (daysOld : Int) * (msPerDay : Int))) =
      (getJobQueue st now).jobQueue) :
    cleanupOldJobs st now daysOld = Except.ok (getJobQueue st now, st) := by
  unfold cleanupOldJobs
  simp [h]

theorem cleanupOldJobs_removal (st : Store) (now daysOld : Nat)
    (hw : st.writeFails = false)
    (h : ((getJobQueue st now).jobQueue.filter
        (keepOnCleanup ((now : Int) - (daysOld : Int) * (msPerDay : Int)))).length <
      (getJobQueue st now).jobQueue.length) :
    cleanupOldJobs st now daysOld = Except.ok
      (QueueState.mk
        ((getJobQueue st now).jobQueue.filter
          (keepOnCleanup ((now : Int) - (daysOld : Int) * (msPerDay : Int))))
        (getJobQueue st now).lastProcessed
        (getJobQueue st now).emailsSent
        (getJobQueue st now).totalJobsProcessed,
       { st with data := some (QueueState.mk
          ((getJobQueue st now).jobQueue.filter
            (keepOnCleanup ((now : Int) - (daysOld : Int) * (msPerDay : Int))))
          (getJobQueue st now).lastProcessed
          (getJobQueue st now).emailsSent
          (getJobQueue st now).totalJobsProcessed) }) := by
  unfold cleanupOldJobs
  simp [saveQueueData, hw, Nat.sub_pos_of_lt h]

/-- C9 (amended): cleanupOldJobs removes exactly the sent records whose
sentAt is at or before the cutoff (records exactly at the cutoff are
removed too); pending records and sent records without a sentAt are
retained unconditionally; counters are untouched; the state is
persisted exactly when at least one record was removed. -/
theorem cleanupOldJobs_spec (st : Store) (now daysOld : Nat)
    (hw : st.writeFails = false) : CleanupSpec st now daysOld := by
  unfold CleanupSpec
  set c : Int := (now : Int) - (daysOld : Int) * (msPerDay : Int) with hc
  by_cases hall : ∀ j ∈ (getJobQueue st now).jobQueue, keepOnCleanup c j = true
  · have hkept := List.filter_eq_self.mpr hall
    refine ⟨getJobQueue st now, st, cleanupOldJobs_no_removal st now daysOld hkept,
      fun j hj _ => hj, fun j hj _ => hj, ?_, fun j hj => hj, rfl, rfl,
      fun _ => rfl, fun hne => absurd rfl hne⟩
    intro j hj t hs ht
    constructor
    · intro hle
      exfalso
      have hk := hall j hj
      rw [keepOnCleanup_sent c j t hs ht] at hk
      have := of_decide_eq_true hk
      omega
    · intro _
      exact hj
  · push_neg at hall
    obtain ⟨j0, hj0, hbad⟩ := hall
    have hbadf : keepOnCleanup c j0 = false := by
      revert hbad
      cases keepOnCleanup c j0 <;> simp
    have hne : (getJobQueue st now).jobQueue.filter (keepOnCleanup c) ≠
        (getJobQueue st now).jobQueue := by
      intro hcontra
      have := List.filter_eq_self.mp hcontra j0 hj0
      rw [hbadf] at this
      cases this
    have hlt : ((getJobQueue st now).jobQueue.filter (keepOnCleanup c)).length <
        (getJobQueue st now).jobQueue.length := by
      refine lt_of_le_of_ne (List.length_filter_le _ _) ?_
      intro hcontra
      exact hne ((List.filter_sublist _).eq_of_length hcontra)
    refine ⟨_, _, cleanupOldJobs_removal st now daysOld hw hlt,
      ?_, ?_, ?_, ?_, rfl, rfl, ?_, fun _ => rfl⟩
    · intro j hj hp
      exact List.mem_filter.mpr ⟨hj, keepOnCleanup_pending c j hp⟩
    · intro j hj hn
      exact List.mem_filter.mpr ⟨hj, keepOnCleanup_noSentAt c j hn⟩
    · intro j hj t hs ht
      constructor
      · intro hle hmem
        have hk := (List.mem_filter.1 hmem).2
        rw [keepOnCleanup_sent c j t hs ht] at hk
        have := of_decide_eq_true hk
        omega
      · intro hgt
        exact List.mem_filter.mpr ⟨hj,
          by rw [keepOnCleanup_sent c j t hs ht]; exact decide_eq_true hgt⟩
    · intro j hj
      exact List.mem_of_mem_filter hj
    · intro hcontra
      exact absurd hcontra hne

theorem cleanupOldJobs_spec_witness :
    exStorePS.writeFails = false ∧ CleanupSpec exStorePS 5 0 ∧
    cleanupOldJobs exStorePS 5 0 = Except.ok
      ({ jobQueue := [mkRec "p" 1 Status.pending none], lastProcessed := 0,
         emailsSent := 0, totalJobsProcessed := 2 },
       { data := some (QueueState.mk [mkRec "p" 1 Status.pending none] 0 0 2),
         readFails := false, writeFails := false }) :=
  ⟨rfl, cleanupOldJobs_spec exStorePS 5 0 rfl, by decide⟩

/-- C9 counterexample: with now = 86400000 and maxAgeDays = 1 the cutoff
is 0; a sent record with sentAt = 0 sits exactly at the cutoff, so it is
not strictly older than the cutoff, yet cleanupOldJobs removes it. -/
theorem cleanup_cutoff_boundary_counterexample :
    cleanupOldJobs exStoreBoundary 86400000 1 = Except.ok
      ({ jobQueue := [], lastProcessed := 0, emailsSent := 0,
         totalJobsProcessed := 1 },
       { data := some (QueueState.mk [] 0 0 1),
         readFails := false, writeFails := false }) ∧
    ¬ (((0 : Nat) : Int) < (86400000 : Int) - (1 : Int) * (msPerDay : Int)) ∧
    (mkRec "s" 1 Status.sent (some 0)) ∈ exCleanQueue.jobQueue := by
  refine ⟨by decide, by decide, by decide⟩

/-- C7 (amended): addNewJobs and markAsSent surface a wrapped error when
the underlying store write throws, but cleanupOldJobs does not: its
catch swallows the write failure and returns the re-read state; read
paths never raise and degrade to empty defaults. -/
theorem write_error_propagation :
    (∀ (st : Store) (now : Nat) (input : List JobMetadata),
      st.writeFails = true →
      (∃ m ∈ input, keepJob
          ((getJobQueue st now).jobQueue.map (fun j => j.guid)) m = true) →
      addNewJobs st now input =
        Except.error "Failed to add jobs to queue: store write failed") ∧
    (∀ (st : Store) (now : Nat) (guids : List String),
      st.writeFails = true →
      (∃ j ∈ (getJobQueue st now).jobQueue, shouldMark guids j = true) →
      markAsSent st now guids =
        Except.error "Failed to mark jobs as sent: store write failed") ∧
    (∀ (st : Store) (now : Nat) (daysOld : Nat),
      ∃ p, cleanupOldJobs st now daysOld = Except.ok p) ∧
    (∀ (st : Store) (now n : Nat), st.readFails = true →
      getJobQueue st now = getEmptyQueue now ∧
      (getNextBatch st now n).1 = [] ∧
      (getQueueStats st now).error = none) := by
  refine ⟨?_, ?_, ?_, ?_⟩
  · intro st now input hw hex
    obtain ⟨m, hm, hkeep⟩ := hex
    have hie : input.isEmpty = false := by
      cases input with
      | nil => cases hm
      | cons a t => rfl
    have hmm : m ∈ input.filter
        (keepJob ((getJobQueue st now).jobQueue.map (fun j => j.guid))) :=
      List.mem_filter.mpr ⟨hm, hkeep⟩
    have hnj : ((input.filter
        (keepJob ((getJobQueue st now).jobQueue.map (fun j => j.guid)))).map
          (toRecord now)).isEmpty = false := by
      have h2 := List.mem_map_of_mem (toRecord now) hmm
      cases hfm : (input.filter
          (keepJob ((getJobQueue st now).jobQueue.map (fun j => j.guid)))).map
            (toRecord now) with
      | nil => rw [hfm] at h2; cases h2
      | cons a t => rfl
    unfold addNewJobs
    simp only [hie, Bool.false_eq_true, if_false, hnj, saveQueueData, hw,
      if_true]
    rfl
  · intro st now guids hw hex
    obtain ⟨j, hj, hmark⟩ := hex
    have hne : guids.isEmpty = false := by
      cases hg : guids with
      | nil =>
        rw [hg] at hmark
        simp [shouldMark] at hmark
      | cons a t => rfl
    have hmem : j ∈ (getJobQueue st now).jobQueue.filter (shouldMark guids) :=
      List.mem_filter.mpr ⟨hj, hmark⟩
    have hpos : 0 < ((getJobQueue st now).jobQueue.filter (shouldMark guids)).length :=
      List.length_pos.mpr (List.ne_nil_of_mem hmem)
    simp only [markAsSent, hne, Bool.false_eq_true, if_false, hpos, if_true,
      saveQueueData, hw]
    rfl
  · intro st now daysOld
    by_cases hall : ∀ j ∈ (getJobQueue st now).jobQueue,
        keepOnCleanup ((now : Int) - (daysOld : Int) * (msPerDay : Int)) j = true
    · exact ⟨_, cleanupOldJobs_no_removal st now daysOld (List.filter_eq_self.mpr hall)⟩
    · push_neg at hall
      obtain ⟨j0, hj0, hbad⟩ := hall
      have hbadf : keepOnCleanup ((now : Int) - (daysOld : Int) * (msPerDay : Int)) j0 = false := by
        revert hbad
        cases keepOnCleanup ((now : Int) - (daysOld : Int) * (msPerDay : Int)) j0 <;> simp
      have hne : (getJobQueue st now).jobQueue.filter
          (keepOnCleanup ((now : Int) - (daysOld : Int) * (msPerDay : Int))) ≠
          (getJobQueue st now).jobQueue := by
        intro hcontra
        have := List.filter_eq_self.mp hcontra j0 hj0
        rw [hbadf] at this
        cases this
      have hlt : ((getJobQueue st now).jobQueue.filter
          (keepOnCleanup ((now : Int) - (daysOld : Int) * (msPerDay : Int)))).length <
          (getJobQueue st now).jobQueue.length := by
        refine lt_of_le_of_ne (List.length_filter_le _ _) ?_
        intro hcontra
        exact hne ((List.filter_sublist _).eq_of_length hcontra)
      cases hwf : st.writeFails with
      | false => exact ⟨_, cleanupOldJobs_removal st now daysOld hwf hlt⟩
      | true =>
        refine ⟨(getJobQueue st now, st), ?_⟩
        unfold cleanupOldJobs
        simp [Nat.sub_pos_of_lt hlt, saveQueueData, hwf]
  · intro st now n h
    refine ⟨getJobQueue_of_readFails st now h, ?_, rfl⟩
    show List.take n (sortByPubDate ((getJobQueue st now).jobQueue.filter isPending)) = []
    rw [getJobQueue_of_readFails st now h]
    simp [sortByPubDate, getEmptyQueue]

theorem write_error_propagation_witness :
    exStoreWBad.writeFails = true ∧
    addNewJobs exStoreWBad 0 [exMetaA] =
      Except.error "Failed to add jobs to queue: store write failed" ∧
    markAsSent { data := some exQueuePS, readFails := false, writeFails := true } 9 ["p"] =
      Except.error "Failed to mark jobs as sent: store write failed" :=
  ⟨rfl,
   write_error_propagation.1 exStoreWBad 0 [exMetaA] rfl
     ⟨exMetaA, by decide, by decide⟩,
   write_error_propagation.2.1
     { data := some exQueuePS, readFails := false, writeFails := true } 9 ["p"] rfl
     ⟨mkRec "p" 1 Status.pending none, by decide, by decide⟩⟩

/-- C7 counterexample: a cleanup that must remove a record, run against
a store whose write throws, returns an ok result carrying the re-read
old state instead of surfacing a wrapped error. -/
theorem cleanup_swallows_write_error_counterexample :
    exStoreCleanBad.writeFails = true ∧
    cleanupOldJobs exStoreCleanBad 86400000 1 =
      Except.ok (exCleanQueue, exStoreCleanBad) ∧
    exCleanQueue.jobQueue.filter
      (keepOnCleanup ((86400000 : Int) - (1 : Int) * (msPerDay : Int))) ≠
      exCleanQueue.jobQueue := by
  refine ⟨rfl, by decide, by decide⟩

theorem addNewJobs_no_new (st : Store) (now : Nat) (input : List JobMetadata)
    (h : input.filter
        (keepJob ((getJobQueue st now).jobQueue.map (fun j => j.guid))) = []) :
    addNewJobs st now input = Except.ok (getJobQueue st now, st) := by
  by_cases hie : input.isEmpty
  · simp [addNewJobs, hie]
  · unfold addNewJobs
    simp [hie, h]

theorem addNewJobs_new (st : Store) (now : Nat) (input : List JobMetadata)
    (hw : st.writeFails = false)
    (h : input.filter
        (keepJob ((getJobQueue st now).jobQueue.map (fun j => j.guid))) ≠ []) :
    addNewJobs st now input = Except.ok
      (QueueState.mk
        ((getJobQueue st now).jobQueue ++
          (input.filter
            (keepJob ((getJobQueue st now).jobQueue.map (fun j => j.guid)))).map
              (toRecord now))
        now
        (getJobQueue st now).emailsSent
        ((getJobQueue st now).totalJobsProcessed +
          ((input.filter
            (keepJob ((getJobQueue st now).jobQueue.map (fun j => j.guid)))).map
              (toRecord now)).length),
       { st with data := some (QueueState.mk
          ((getJobQueue st now).jobQueue ++
            (input.filter
              (keepJob ((getJobQueue st now).jobQueue.map (fun j => j.guid)))).map
                (toRecord now))
          now
          (getJobQueue st now).emailsSent
          ((getJobQueue st now).totalJobsProcessed +
            ((input.filter
              (keepJob ((getJobQueue st now).jobQueue.map (fun j => j.guid)))).map
                (toRecord now)).length)) }) := by
  have hie : input.isEmpty = false := by
    cases hi : input with
    | nil =>
      rw [hi] at h
      exact absurd rfl h
    | cons a t => rfl
  have hnj : ((input.filter
      (keepJob ((getJobQueue st now).jobQueue.map (fun j => j.guid)))).map
        (toRecord now)).isEmpty = false := by
    cases hf : input.filter
        (keepJob ((getJobQueue st now).jobQueue.map (fun j => j.guid))) with
    | nil => exact absurd hf h
    | cons a t => rfl
  unfold addNewJobs
  simp only [hie, Bool.false_eq_true, if_false, hnj, saveQueueData, hw, if_true]

theorem guid_toRecord (now : Nat) (m : JobMetadata) (g : String)
    (hg : m.guid = some g) : (toRecord now m).guid = g := by
  simp [toRecord, hg]

theorem map_guid_survivors (now : Nat) (gs : List String) (l : List JobMetadata) :
    ((l.filter (keepJob gs)).map (toRecord now)).map (fun j => j.guid) =
      (l.filter (keepJob gs)).filterMap (fun m => m.guid) := by
  induction l with
  | nil => rfl
  | cons m t ih =>
    by_cases hk : keepJob gs m = true
    · rw [List.filter_cons_of_pos hk]
      obtain ⟨g, hg, _, _⟩ := (keepJob_eq_true_iff gs m).1 hk
      simp only [List.map_cons, List.filterMap_cons, hg]
      rw [guid_toRecord now m g hg, ih]
    · rw [List.filter_cons_of_neg (by simpa using hk)]
      exact ih

/-- C10: addNewJobs leaves every pre-existing record entirely unchanged
and in place; surviving new records are appended after all existing
records, each pending, stamped discoveredAt = now, without sentAt, with
fields copied from the input record and pubDate defaulting to the
insertion time when the input carries none. -/
theorem addNewJobs_frame_spec (st : Store) (now : Nat) (input : List JobMetadata)
    (hw : st.writeFails = false) : AddNewJobsFrameSpec st now input := by
  unfold AddNewJobsFrameSpec
  by_cases hf : input.filter
      (keepJob ((getJobQueue st now).jobQueue.map (fun j => j.guid))) = []
  · refine ⟨getJobQueue st now, st, addNewJobs_no_new st now input hf,
      List.take_length _, ?_⟩
    intro r hr
    rw [List.drop_length] at hr
    cases hr
  · refine ⟨_, _, addNewJobs_new st now input hw hf, List.take_left _ _, ?_⟩
    intro r hr
    simp only [List.drop_left] at hr
    obtain ⟨m, hmf, rfl⟩ := List.mem_map.1 hr
    have hmem := List.mem_filter.1 hmf
    obtain ⟨g, hg, hgne, hgnotin⟩ := (keepJob_eq_true_iff _ m).1 hmem.2
    exact ⟨rfl, rfl, rfl, m, hmem.1,
      by rw [guid_toRecord now m g hg]; exact hg, rfl, rfl, rfl⟩

theorem addNewJobs_frame_spec_witness :
    AddNewJobsFrameSpec exStoreABCD 7
      [{ guid := some "z", jobNumber := none, pubDate := none, applyUrl := "u" }] ∧
    (toRecord 7
      { guid := some "z", jobNumber := none, pubDate := none, applyUrl := "u" }).pubDate = 7 :=
  ⟨addNewJobs_frame_spec exStoreABCD 7
    [{ guid := some "z", jobNumber := none, pubDate := none, applyUrl := "u" }] rfl, rfl⟩

/-- C1 counterexample: addNewJobs builds its dedup set once from the
pre-call queue, so an input list containing the same guid twice on an
empty queue inserts two records and counts totalJobsProcessed = 2,
falsifying the claimed result of exactly one record and
totalJobsProcessed = 1, and breaking guid uniqueness. -/
theorem addNewJobs_duplicate_input_counterexample :
    addNewJobs exEmptyStore 0 [exMetaA, exMetaA] =
      Except.ok (exDupQueue,
        { data := some exDupQueue, readFails := false, writeFails := false }) ∧
    exDupQueue.totalJobsProcessed = 2 ∧
    exDupQueue.jobQueue.length = 2 ∧
    ¬ (exDupQueue.jobQueue.map (fun j => j.guid)).Nodup := by
  refine ⟨by decide, rfl, rfl, by decide⟩

/-- C1 (amended): dedup in addNewJobs applies only against the queue
contents from before the call: a record whose guid already exists in
the queue is skipped as a no-op, totalJobsProcessed grows exactly by the
number of appended records, guid uniqueness is preserved provided the
input guids are themselves distinct, and repeating the same call is a
no-op; records of the same guid occurring twice within one input list
are each inserted. -/
theorem addNewJobs_dedup_spec (st : Store) (now : Nat) (input : List JobMetadata)
    (hr : st.readFails = false) (hw : st.writeFails = false) :
    AddNewJobsDedupSpec st now input := by
  unfold AddNewJobsDedupSpec
  by_cases hf : input.filter
      (keepJob ((getJobQueue st now).jobQueue.map (fun j => j.guid))) = []
  · refine ⟨getJobQueue st now, st, addNewJobs_no_new st now input hf,
      ?_, ?_, ?_, ?_⟩
    · intro r hr2
      rw [List.drop_length] at hr2
      cases hr2
    · intro _ hq
      exact hq
    · rw [Nat.sub_self]
      rfl
    · intro now2
      cases hd : st.data with
      | some q0 =>
        have h1 : getJobQueue st now2 = q0 := by
          simp [getJobQueue, hr, hd, normalizeQueueData]
        have h2 : getJobQueue st now = q0 := by
          simp [getJobQueue, hr, hd, normalizeQueueData]
        have hf2 : input.filter
            (keepJob ((getJobQueue st now2).jobQueue.map (fun j => j.guid))) = [] := by
          rw [h1, ← h2]
          exact hf
        refine ⟨getJobQueue st now2, addNewJobs_no_new st now2 input hf2, ?_, ?_⟩
        · rw [h1, h2]
        · rw [h1, h2]
      | none =>
        have h1 : getJobQueue st now2 = getEmptyQueue now2 := by
          simp [getJobQueue, hr, hd, normalizeQueueData]
        have h2 : getJobQueue st now = getEmptyQueue now := by
          simp [getJobQueue, hr, hd, normalizeQueueData]
        have hf2 : input.filter
            (keepJob ((getJobQueue st now2).jobQueue.map (fun j => j.guid))) = [] := by
          rw [h1]
          rw [h2] at hf
          exact hf
        refine ⟨getJobQueue st now2, addNewJobs_no_new st now2 input hf2, ?_, ?_⟩
        · rw [h1, h2]
          rfl
        · rw [h1, h2]
          rfl
  · refine ⟨_, _, addNewJobs_new st now input hw hf, ?_, ?_, ?_, ?_⟩
    · intro r hr2
      simp only [List.drop_left] at hr2
      obtain ⟨m, hmf, rfl⟩ := List.mem_map.1 hr2
      obtain ⟨g, hg, hgne, hgnotin⟩ :=
        (keepJob_eq_true_iff _ m).1 (List.mem_filter.1 hmf).2
      rw [guid_toRecord now m g hg]
      exact hgnotin
    · intro hinput hqnodup
      show (((getJobQueue st now).jobQueue ++
        (input.filter
          (keepJob ((getJobQueue st now).jobQueue.map (fun j => j.guid)))).map
            (toRecord now)).map (fun j => j.guid)).Nodup
      rw [List.map_append, List.nodup_append]
      refine ⟨hqnodup, ?_, ?_⟩
      · rw [map_guid_survivors]
        exact List.Nodup.sublist
          ((List.filter_sublist input).filterMap (fun m => m.guid)) hinput
      · intro a ha hb
        rw [map_guid_survivors] at hb
        obtain ⟨m, hmf, hmg⟩ := List.mem_filterMap.1 hb
        obtain ⟨g, hg, hgne, hgnotin⟩ :=
          (keepJob_eq_true_iff _ m).1 (List.mem_filter.1 hmf).2
        rw [hg] at hmg
        cases hmg
        exact hgnotin ha
    · show (getJobQueue st now).totalJobsProcessed + _ =
        (getJobQueue st now).totalJobsProcessed +
          (((getJobQueue st now).jobQueue ++ _).length -
            (getJobQueue st now).jobQueue.length)
      rw [List.length_append]
      omega
    · intro now2
      have hq2get : getJobQueue
          ({ st with data := some (QueueState.mk
            ((getJobQueue st now).jobQueue ++
              (input.filter
                (keepJob ((getJobQueue st now).jobQueue.map (fun j => j.guid)))).map
                  (toRecord now))
            now
            (getJobQueue st now).emailsSent
            ((getJobQueue st now).totalJobsProcessed +
              ((input.filter
                (keepJob ((getJobQueue st now).jobQueue.map (fun j => j.guid)))).map
                  (toRecord now)).length)) }) now2 =
          QueueState.mk
            ((getJobQueue st now).jobQueue ++
              (input.filter
                (keepJob ((getJobQueue st now).jobQueue.map (fun j => j.guid)))).map
                  (toRecord now))
            now
            (getJobQueue st now).emailsSent
            ((getJobQueue st now).totalJobsProcessed +
              ((input.filter
                (keepJob ((getJobQueue st now).jobQueue.map (fun j => j.guid)))).map
                  (toRecord now)).length) := by
        simp [getJobQueue, hr, normalizeQueueData]
      have hf2 : input.filter (keepJob ((getJobQueue
          ({ st with data := some (QueueState.mk
            ((getJobQueue st now).jobQueue ++
              (input.filter
                (keepJob ((getJobQueue st now).jobQueue.map (fun j => j.guid)))).map
                  (toRecord now))
            now
            (getJobQueue st now).emailsSent
            ((getJobQueue st now).totalJobsProcessed +
              ((input.filter
                (keepJob ((getJobQueue st now).jobQueue.map (fun j => j.guid)))).map
                  (toRecord now)).length)) }) now2).jobQueue.map
            (fun j => j.guid))) = [] := by
        rw [List.filter_eq_nil_iff]
        intro m hm hkm
        obtain ⟨g, hg, hgne, hgnotin⟩ := (keepJob_eq_true_iff _ m).1 hkm
        apply hgnotin
        rw [hq2get]
        show g ∈ ((getJobQueue st now).jobQueue ++
          (input.filter
            (keepJob ((getJobQueue st now).jobQueue.map (fun j => j.guid)))).map
              (toRecord now)).map (fun j => j.guid)
        rw [List.map_append]
        by_cases hgs : g ∈ (getJobQueue st now).jobQueue.map (fun j => j.guid)
        · exact List.mem_append_left _ hgs
        · apply List.mem_append_right
          rw [map_guid_survivors]
          exact List.mem_filterMap.2 ⟨m, List.mem_filter.2
            ⟨hm, (keepJob_eq_true_iff _ m).2 ⟨g, hg, hgne, hgs⟩⟩, hg⟩
      refine ⟨_, addNewJobs_no_new _ now2 input hf2, ?_, ?_⟩
      · rw [hq2get]
      · rw [hq2get]

theorem addNewJobs_dedup_spec_witness :
    AddNewJobsDedupSpec exEmptyStore 0 [exMetaA, exMetaB] ∧
    ([exMetaA, exMetaB].filterMap (fun m => m.guid)).Nodup :=
  ⟨addNewJobs_dedup_spec exEmptyStore 0 [exMetaA, exMetaB] rfl rfl, by decide⟩
